import Mathlib

/-!
Verification development for the Books Log web service (`books_api.py`):
a FastAPI server exposing CRUD over a single SQLite table `books`, with
best-effort synchronization of the database file to Google Drive, an
OAuth-authorized e-book upload endpoint, and a CSV backup endpoint.

The record store is the SQLite table
`books (id INTEGER PRIMARY KEY, title, author, status, rating, notes, file_path)`.
With `id INTEGER PRIMARY KEY`, `id` is the table's rowid: rows are stored
in increasing `id` order and duplicate ids are rejected by the engine, so
every reachable table state is a list of rows strictly sorted by `id`, and
`SELECT ... ORDER BY id` returns rows in representation order.  We model
the table as a `List BookOut` held in that canonical id-sorted order, and
`INSERT` as placement at the id-ordered position.

External collaborators (the Google Drive client, the OAuth token exchange,
the filesystem of temporary e-book copies) are modelled by explicit
outcome parameters threaded into the handlers; the handlers' use of those
outcomes (swallowing, logging, propagating) is translated from the source.
-/

namespace BooksApi

/-- Pydantic model `BookIn`: the request body for insert/update. -/
structure BookIn where
  title : String
  author : String
  status : String
  rating : String
  notes : String
  file_path : String
deriving Repr, DecidableEq

/-- Pydantic model `BookOut`: a `BookIn` plus the assigned `id`.  Also the
shape of one row of the `books` table. -/
structure BookOut where
  id : Int
  title : String
  author : String
  status : String
  rating : String
  notes : String
  file_path : String
deriving Repr, DecidableEq

/-- The `books` table, in its canonical id-sorted row order (see module
comment). -/
abbrev Store := List BookOut

/-- Forget the id column of a row (the shape fetched by
`SELECT title, author, status, rating, notes, file_path`). -/
def stripId (b : BookOut) : BookIn :=
  ⟨b.title, b.author, b.status, b.rating, b.notes, b.file_path⟩

/-- Build a row from an id and submitted fields, as
`BookOut(id=new_id, **b.dict())` does. -/
def mkBookOut (i : Int) (b : BookIn) : BookOut :=
  ⟨i, b.title, b.author, b.status, b.rating, b.notes, b.file_path⟩

/-- FastAPI `HTTPException(status_code, detail)`. -/
structure HttpExc where
  status : Nat
  detail : String
deriving Repr, DecidableEq

/-- `fetch_all_books_local`: `SELECT id, title, ... FROM books ORDER BY id`.
On the canonical id-sorted representation this is the representation
order. -/
def fetch_all_books_local (s : Store) : List BookOut := s

/-- `INSERT INTO books (id, ...) VALUES (?, ...)`: the row is stored at its
id-ordered position in the table (id is the rowid). -/
def insertRow (b : BookOut) : Store → Store
  | [] => [b]
  | x :: xs => if b.id < x.id then b :: x :: xs else x :: insertRow b xs

/-- `insert_book_local_with_id(book_id, title, ..., file_path)`. -/
def insert_book_local_with_id (s : Store) (b : BookOut) : Store :=
  insertRow b s

/-- `SELECT MAX(id) FROM books`: the maximum of the id column, or NULL on
an empty table. -/
def sql_max_id : Store → Option Int
  | [] => none
  | b :: rest =>
    match sql_max_id rest with
    | none => some b.id
    | some m => some (max b.id m)

/-- `get_next_id_local`: `maxid = row[0] if row and row[0] is not None
else 0; return maxid + 1`. -/
def get_next_id_local (s : Store) : Int :=
  (sql_max_id s).getD 0 + 1

/-- Outcome of `upload_db_to_drive()` (an external Drive call): the
`files().update` succeeded, the `files().create` fallback succeeded, or
both raised (the function re-raises the second exception). -/
inductive UploadResult where
  | updated
  | createdFallback
  | failed (msg : String)
deriving Repr, DecidableEq

/-- The `print(...)` line emitted by the `except` block that the mutating
endpoints wrap around `upload_db_to_drive()`. -/
def uploadLog (tag : String) : UploadResult → List String
  | .failed msg => [tag ++ msg]
  | _ => []

/-- Result of one endpoint handler: the HTTP response (body or raised
`HTTPException`), the table state after the request, and the log lines
printed for swallowed failures. -/
structure OpResult (α : Type) where
  response : Except HttpExc α
  store : Store
  log : List String
deriving Repr

/-- `POST /books` handler `add_book` (after `check_key`): computes
`new_id = get_next_id_local()`, inserts the row, attempts the Drive
upload swallowing any failure, and returns `BookOut(id=new_id, **b.dict())`. -/
def add_book (s : Store) (b : BookIn) (upload : UploadResult) : OpResult BookOut :=
  let new_id := get_next_id_local s
  let s1 := insert_book_local_with_id s (mkBookOut new_id b)
  ⟨.ok (mkBookOut new_id b), s1, uploadLog "Upload after add failed: " upload⟩

/-- `PUT /books/{book_id}` handler `update_book` (after `check_key`):
`SELECT id FROM books WHERE id=?`; if no row, raise 404 leaving the table
untouched; else `UPDATE books SET title=?, ... WHERE id=?`, attempt the
Drive upload swallowing failure, and return `BookOut(id=book_id, **b.dict())`. -/
def update_book (s : Store) (book_id : Int) (b : BookIn) (upload : UploadResult) :
    OpResult BookOut :=
  match s.find? (fun r => r.id == book_id) with
  | none => ⟨.error ⟨404, "Book not found"⟩, s, []⟩
  | some _ =>
    let s1 := s.map (fun r => if r.id == book_id then mkBookOut r.id b else r)
    ⟨.ok (mkBookOut book_id b), s1, uploadLog "Upload after update failed: " upload⟩

/-- The tail-fields of a row constructed with a fresh id, as the reinsert
loops of `delete_book` and `save_all` do. -/
def rowWithId (i : Int) (r : BookIn) : BookOut :=
  ⟨i, r.title, r.author, r.status, r.rating, r.notes, r.file_path⟩

/-- The reinsert loop of `delete_book`: `new_id = 1; for r in rows:
INSERT ...; new_id += 1`, executed against the table state `acc`. -/
def reinsertLoop (new_id : Int) (rows : List BookIn) (acc : Store) : Store :=
  match rows with
  | [] => acc
  | r :: rs => reinsertLoop (new_id + 1) rs (insert_book_local_with_id acc (rowWithId new_id r))

/-- `DELETE /books/{book_id}` handler `delete_book` (after `check_key`):
deletes rows with the given id, fetches the survivors in id order without
their ids, clears the table, reinserts them with fresh ids 1, 2, ...,
attempts the Drive upload swallowing failure, and returns the detail
`deleted_and_renumbered`. -/
def delete_book (s : Store) (book_id : Int) (upload : UploadResult) : OpResult String :=
  let s1 := s.filter (fun r => r.id != book_id)
  let rows := (fetch_all_books_local s1).map stripId
  let s2 := reinsertLoop 1 rows []
  ⟨.ok "deleted_and_renumbered", s2, uploadLog "Upload after delete failed: " upload⟩

/-- Python attribute lookup `item.get` where `item` is a pydantic
`BookOut` model instance: pydantic `BaseModel` defines no attribute or
method named `get` (dict-style access is not part of the model API), so
the lookup raises `AttributeError` before any value is produced. -/
def BookOut.attrGet (_item : BookOut) : Except String (String → String → String) :=
  .error "AttributeError: the BookOut object has no attribute get"

/-- The body of `for item in payload:` in `save_all`: each iteration
evaluates `item.get("title", "")`, `item.get("author", "")`, ... and
inserts the row with the running `new_id`.  The first `item.get`
evaluation raises, so a non-empty payload aborts on its first item. -/
def saveAllLoop : List BookOut → Int → Store → Except String Store
  | [], _, acc => .ok acc
  | item :: rest, new_id, acc =>
    match item.attrGet with
    | .error e => .error e
    | .ok g =>
      let row := rowWithId new_id ⟨g "title" "", g "author" "", g "status" "", g "rating" "", g "notes" "", g "file_path" ""⟩
      saveAllLoop rest (new_id + 1) (insert_book_local_with_id acc row)

/-- `POST /save_all` handler `save_all` (after `check_key`): inside a
`try`, `DELETE FROM books` then the reinsert loop over the payload, then
`conn.commit()`, the swallowed Drive upload, and detail `saved`.  Any
exception in the `try` reaches `conn.commit()` never: the implicit
transaction holding the `DELETE` is rolled back when the connection is
discarded, so the table keeps its prior state, and the handler raises
`HTTPException(500, "save_all failed")`. -/
def save_all (s : Store) (payload : List BookOut) (upload : UploadResult) :
    OpResult String :=
  match saveAllLoop payload 1 [] with
  | .ok s2 => ⟨.ok "saved", s2, uploadLog "Upload after save_all failed: " upload⟩
  | .error _ => ⟨.error ⟨500, "save_all failed"⟩, s, []⟩

/-- The OAuth-related configuration and token state read by
`get_oauth_drive_service`: the env vars `OAUTH_CREDENTIALS_B64` and
`OAUTH_TOKEN_B64`, and the expiry/refresh-token state of the stored
credential bundle. -/
structure OAuthEnv where
  oauth_credentials_b64 : Option String
  oauth_token_b64 : Option String
  token_expired : Bool
  has_refresh_token : Bool
deriving Repr, DecidableEq

/-- The `google.oauth2.credentials.Credentials` object built from the
token bundle: whether it is currently expired, whether it carries a
refresh token, and whether `creds.refresh(Request())` was invoked. -/
structure Creds where
  expired : Bool
  has_refresh_token : Bool
  refreshed : Bool
deriving Repr, DecidableEq

/-- The Drive client returned by `build("drive", "v3", credentials=creds)`,
carrying the credential it was built with. -/
structure DriveService where
  creds : Creds
deriving Repr, DecidableEq

/-- `get_oauth_drive_service()`: raise 500 if `OAUTH_CREDENTIALS_B64` is
unset; raise 500 telling the operator to authorize if `OAUTH_TOKEN_B64`
is unset; refresh the credential when it is expired and holds a refresh
token; then return the Drive client built with whatever credential
resulted (expired or not). -/
def get_oauth_drive_service (env : OAuthEnv) : Except HttpExc DriveService :=
  match env.oauth_credentials_b64 with
  | none => .error ⟨500, "OAuth credentials missing"⟩
  | some _ =>
    match env.oauth_token_b64 with
    | none => .error ⟨500, "OAuth token missing. You must authorize first."⟩
    | some _ =>
      let creds : Creds := ⟨env.token_expired, env.has_refresh_token, false⟩
      let creds :=
        if creds.expired && creds.has_refresh_token then
          { creds with expired := false, refreshed := true }
        else creds
      .ok ⟨creds⟩

/-- Configuration and external outcomes of `upload_ebook` other than the
OAuth state: the `EBOOKS_FOLDER_ID` env var, the outcome of the Drive
`files().create` call, the `BOOKS_OWNER_EMAIL` env var, whether the
`permissions().create` grant succeeded, and whether `os.remove` of the
temporary file succeeded. -/
structure UploadEnv where
  ebooks_folder_id : Option String
  drive_create : Except String (String × String × String)
  books_owner_email : Option String
  permission_ok : Bool
  remove_ok : Bool
deriving Repr

/-- Exit state of one `POST /upload_ebook` request: the response, whether
the request's temporary local copy under `/tmp` still exists when the
handler returns or raises, and the non-fatal log lines. -/
structure UploadOutcome where
  response : Except HttpExc (String × String × String)
  temp_file_exists : Bool
  log : List String
deriving Repr

/-- `POST /upload_ebook` handler `upload_ebook` (after `check_key`):
raise 500 if `EBOOKS_FOLDER_ID` is unset (before the temporary file is
written); write the upload to `/tmp`; build the OAuth Drive client,
re-raising its `HTTPException` as is; run the Drive `files().create`,
turning an `HttpError` into a 500; optionally grant the owner read access
(failure printed, non-fatal); `try: os.remove(temp_path) except: pass`;
return the created file's links.  There is no `finally` clause: the
`os.remove` sits on the success path only, so every raising exit after
the temporary file was written leaves it behind. -/
def upload_ebook (oenv : OAuthEnv) (uenv : UploadEnv) : UploadOutcome :=
  match uenv.ebooks_folder_id with
  | none => ⟨.error ⟨500, "EBOOKS_FOLDER_ID not configured on the server."⟩, false, []⟩
  | some _ =>
    match get_oauth_drive_service oenv with
    | .error he => ⟨.error he, true, []⟩
    | .ok _drive =>
      match uenv.drive_create with
      | .error m => ⟨.error ⟨500, "Upload ebook failed (Drive API): " ++ m⟩, true, []⟩
      | .ok (ebook_id, view_url, download_url) =>
        let permLog :=
          match uenv.books_owner_email with
          | none => []
          | some _ =>
            if uenv.permission_ok then []
            else ["Failed to set viewer permission for owner email (non-fatal)"]
        ⟨.ok (ebook_id, view_url, download_url), !uenv.remove_ok, permLog⟩

/-- `check_key(x_api_key)`: 401 when the header is absent, 401 when it
does not match the configured secret after stripping whitespace on both
sides. -/
def check_key (api_key : String) (x_api_key : Option String) : Except HttpExc Unit :=
  match x_api_key with
  | none => .error ⟨401, "Missing API key"⟩
  | some k => if k.trim ≠ api_key.trim then .error ⟨401, "Invalid API key"⟩ else .ok ()

/-- Whether a presented `X-API-Key` header value passes `check_key`. -/
def keyOk (api_key : String) (k : Option String) : Bool :=
  match k with
  | none => false
  | some v => v.trim == api_key.trim

/-- One HTTP request to the service, with its parsed inputs. -/
inductive Request where
  | getBooks
  | addBook (b : BookIn)
  | updateBook (book_id : Int) (b : BookIn)
  | deleteBook (book_id : Int)
  | saveAll (payload : List BookOut)
  | oauthStart
  | oauthFinish (code : String)
  | uploadEbook
  | backup
deriving Repr, DecidableEq

/-- A successful JSON response body of one of the endpoints. -/
inductive Body where
  | books (rows : List BookOut)
  | book (b : BookOut)
  | detail (d : String)
  | oauthStartInfo (auth_url redirect_to_use : String)
  | oauthToken (message base64_token : String)
  | ebook (id webViewLink webContentLink : String)
deriving Repr, DecidableEq

/-- The process configuration plus the outcomes of all external calls a
request may make: the `BOOKS_API_KEY` secret, the OAuth configuration,
the e-book upload configuration, the per-mutation Drive DB upload
outcome, the authorization URL and redirect URI the Google flow produces,
the outcome of the `flow.fetch_token` exchange (the encoded bundle on
success), and the outcome of the backup's Drive calls (the action string
`updated` or `created` on success). -/
structure Env where
  api_key : String
  oauth : OAuthEnv
  uploadEnv : UploadEnv
  db_upload : UploadResult
  auth_url : String
  redirect_uri : String
  fetch_token : Except String String
  backup_result : Except String String
deriving Repr

/-- Dispatch of one HTTP request: the response and the table state after
the request.  Every endpoint except `GET /oauth_start` and
`GET /oauth_finish` runs `check_key` before touching anything else. -/
def handle (env : Env) (req : Request) (key : Option String) (s : Store) :
    Except HttpExc Body × Store :=
  match req with
  | .getBooks =>
    match check_key env.api_key key with
    | .error e => (.error e, s)
    | .ok _ => (.ok (.books (fetch_all_books_local s)), s)
  | .addBook b =>
    match check_key env.api_key key with
    | .error e => (.error e, s)
    | .ok _ =>
      let r := add_book s b env.db_upload
      (r.response.map Body.book, r.store)
  | .updateBook book_id b =>
    match check_key env.api_key key with
    | .error e => (.error e, s)
    | .ok _ =>
      let r := update_book s book_id b env.db_upload
      (r.response.map Body.book, r.store)
  | .deleteBook book_id =>
    match check_key env.api_key key with
    | .error e => (.error e, s)
    | .ok _ =>
      let r := delete_book s book_id env.db_upload
      (r.response.map Body.detail, r.store)
  | .saveAll payload =>
    match check_key env.api_key key with
    | .error e => (.error e, s)
    | .ok _ =>
      let r := save_all s payload env.db_upload
      (r.response.map Body.detail, r.store)
  | .oauthStart =>
    match env.oauth.oauth_credentials_b64 with
    | none => (.error ⟨500, "OAuth credentials missing"⟩, s)
    | some _ => (.ok (.oauthStartInfo env.auth_url env.redirect_uri), s)
  | .oauthFinish _code =>
    match env.oauth.oauth_credentials_b64 with
    | none => (.error ⟨500, "OAuth credentials missing"⟩, s)
    | some _ =>
      match env.fetch_token with
      | .error m => (.error ⟨500, m⟩, s)
      | .ok tok => (.ok (.oauthToken "Paste this into Railway as OAUTH_TOKEN_B64" tok), s)
  | .uploadEbook =>
    match check_key env.api_key key with
    | .error e => (.error e, s)
    | .ok _ =>
      let r := upload_ebook env.oauth env.uploadEnv
      (r.response.map (fun t => Body.ebook t.1 t.2.1 t.2.2), s)
  | .backup =>
    match check_key env.api_key key with
    | .error e => (.error e, s)
    | .ok _ =>
      match env.backup_result with
      | .error m => (.error ⟨500, "Backup failed: " ++ m⟩, s)
      | .ok action => (.ok (.detail ("backup_" ++ action ++ "_in_drive")), s)

/-- Whether an `Except` result is an error. -/
def exceptIsError {ε α : Type} : Except ε α → Bool
  | .error _ => true
  | .ok _ => false

/-- Spec-side description of renumbering: the given field rows receive
the consecutive identifiers `n, n+1, ...` in order. -/
def renumberFrom (n : Int) : List BookIn → List BookOut
  | [] => []
  | r :: rs => rowWithId n r :: renumberFrom (n + 1) rs

/-- Spec-side description of a block of consecutive identifiers:
`[m, m+1, ..., m+k-1]`. -/
def idRangeFrom (m : Int) : Nat → List Int
  | 0 => []
  | k + 1 => m :: idRangeFrom (m + 1) k

/-- Spec-side statement of the store invariant of §3: the identifiers are
exactly the contiguous sequence `1 .. n` for the current record count
`n`, in order. -/
def contiguousIds (s : Store) : Prop :=
  s.map (fun r => r.id) = idRangeFrom 1 s.length

/-- Spec-side next identifier, following §8 of the spec: `max(existing
ids) + 1`, or `1` on an empty store. -/
def specNextId (s : Store) : Int :=
  match (s.map (fun r => r.id)).max? with
  | none => 1
  | some m => m + 1

/-- The endpoints whose handlers call `check_key`; `GET /oauth_start` and
`GET /oauth_finish` do not. -/
def usesCheckKey : Request → Bool
  | .oauthStart => false
  | .oauthFinish _ => false
  | _ => true

/-- The HTTP status of a response: the raised status, or `none` for a 200
body. -/
def statusOf : Except HttpExc Body → Option Nat
  | .error e => some e.status
  | .ok _ => none

/-! ### Helper lemmas -/

lemma foldl_max_eq_max? (l : List Int) (a : Int) :
    l.foldl max a = match l.max? with | none => a | some m => max a m := by
  induction l generalizing a with
  | nil => rfl
  | cons x xs ih =>
    show xs.foldl max (max a x) = max a ((x :: xs).max?.getD 0)
    have hx : (x :: xs).max? = some (xs.foldl max x) := rfl
    rw [hx]
    rw [ih (max a x), ih x]
    cases hm : xs.max? with
    | none => simp
    | some m => simp [max_assoc]

lemma max?_cons_int (a : Int) (l : List Int) :
    (a :: l).max? = some (match l.max? with | none => a | some m => max a m) := by
  have h : (a :: l).max? = some (l.foldl max a) := rfl
  rw [h, foldl_max_eq_max? l a]

lemma sql_max_id_eq_max? (s : Store) :
    sql_max_id s = (s.map (fun r => r.id)).max? := by
  induction s with
  | nil => rfl
  | cons b rest ih =>
    show (match sql_max_id rest with
          | none => some b.id
          | some m => some (max b.id m)) = ((b :: rest).map (fun r => r.id)).max?
    rw [List.map_cons, max?_cons_int, ih]
    cases (rest.map (fun r => r.id)).max? <;> rfl

lemma get_next_id_local_eq_specNextId (s : Store) :
    get_next_id_local s = specNextId s := by
  unfold get_next_id_local specNextId
  rw [sql_max_id_eq_max?]
  cases (s.map (fun r => r.id)).max? <;> simp

lemma sql_max_id_eq_none_iff (s : Store) : sql_max_id s = none ↔ s = [] := by
  cases s with
  | nil => simp [sql_max_id]
  | cons b rest =>
    simp only [sql_max_id]
    constructor
    · intro h
      cases hr : sql_max_id rest <;> rw [hr] at h <;> exact absurd h (by simp)
    · intro h
      exact absurd h (by simp)

lemma sql_max_id_is_ub (s : Store) (m : Int) (h : sql_max_id s = some m) :
    ∀ x ∈ s, x.id ≤ m := by
  induction s generalizing m with
  | nil => intro x hx; cases hx
  | cons b rest ih =>
    intro x hx
    simp only [sql_max_id] at h
    cases hr : sql_max_id rest with
    | none =>
      rw [hr] at h
      have hb : m = b.id := by cases h; rfl
      have hrest : rest = [] := (sql_max_id_eq_none_iff rest).mp hr
      subst hrest
      rcases List.mem_singleton.mp hx with rfl
      omega
    | some m0 =>
      rw [hr] at h
      have hm : m = max b.id m0 := by cases h; rfl
      rcases List.mem_cons.mp hx with rfl | hx2
      · rw [hm]; exact le_max_left _ _
      · have := ih m0 hr x hx2
        rw [hm]
        exact le_trans this (le_max_right _ _)

lemma sql_max_id_mem (s : Store) (m : Int) (h : sql_max_id s = some m) :
    ∃ x ∈ s, x.id = m := by
  induction s generalizing m with
  | nil => cases h
  | cons b rest ih =>
    simp only [sql_max_id] at h
    cases hr : sql_max_id rest with
    | none =>
      rw [hr] at h
      have hb : m = b.id := by cases h; rfl
      exact ⟨b, List.mem_cons_self _ _, hb.symm⟩
    | some m0 =>
      rw [hr] at h
      have hm : m = max b.id m0 := by cases h; rfl
      rcases max_choice b.id m0 with hc | hc

      · exact ⟨b, List.mem_cons_self _ _, by rw [hm, hc]⟩
      · obtain ⟨x, hx, hxm⟩ := ih m0 hr
        exact ⟨x, List.mem_cons_of_mem _ hx, by rw [hm, hc, hxm]⟩

lemma mem_idRangeFrom {x m : Int} {k : Nat} (h : x ∈ idRangeFrom m k) :
    m ≤ x ∧ x < m + (k : Int) := by
  induction k generalizing m with
  | zero => cases h
  | succ k ih =>
    rcases List.mem_cons.mp h with rfl | h2
    · constructor
      · exact le_refl x
      · push_cast; omega
    · have := ih h2
      push_cast at this ⊢
      omega

lemma last_mem_idRangeFrom (m : Int) (k : Nat) :
    m + (k : Int) ∈ idRangeFrom m (k + 1) := by
  induction k generalizing m with
  | zero => simp [idRangeFrom]
  | succ k ih =>
    have := ih (m + 1)
    refine List.mem_cons_of_mem _ ?_
    have harith : m + 1 + (k : Int) = m + ((k : Nat) + 1 : Nat) := by push_cast; omega
    rw [← harith]
    exact this

lemma idRangeFrom_concat (m : Int) (k : Nat) :
    idRangeFrom m (k + 1) = idRangeFrom m k ++ [m + (k : Int)] := by
  induction k generalizing m with
  | zero => simp [idRangeFrom]
  | succ k ih =>
    have harith : m + 1 + (k : Int) = m + ((k + 1 : Nat) : Int) := by push_cast; omega
    show m :: idRangeFrom (m + 1) (k + 1) = (m :: idRangeFrom (m + 1) k) ++ [m + ((k + 1 : Nat) : Int)]
    rw [ih (m + 1), harith]
    rfl

lemma insertRow_append (b : BookOut) (l : Store) (h : ∀ x ∈ l, ¬ b.id < x.id) :
    insertRow b l = l ++ [b] := by
  induction l with
  | nil => rfl
  | cons x xs ih =>
    have hx : ¬ b.id < x.id := h x (List.mem_cons_self _ _)
    simp only [insertRow, if_neg hx, List.cons_append]
    congr 1
    exact ih (fun y hy => h y (List.mem_cons_of_mem _ hy))

lemma reinsertLoop_eq (rows : List BookIn) :
    ∀ (n : Int) (acc : Store), (∀ x ∈ acc, x.id ≤ n) →
      reinsertLoop n rows acc = acc ++ renumberFrom n rows := by
  induction rows with
  | nil => intro n acc _; simp [reinsertLoop, renumberFrom]
  | cons r rs ih =>
    intro n acc hacc
    show reinsertLoop (n + 1) rs (insert_book_local_with_id acc (rowWithId n r)) = _
    have hins : insert_book_local_with_id acc (rowWithId n r) = acc ++ [rowWithId n r] :=
      insertRow_append _ _ (fun x hx => by
        have := hacc x hx
        show ¬ n < x.id
        omega)
    rw [hins, ih (n + 1) (acc ++ [rowWithId n r]) ?_]
    · simp [renumberFrom]
    · intro x hx
      rcases List.mem_append.mp hx with hx1 | hx2
      · exact le_trans (hacc x hx1) (by omega)
      · rcases List.mem_singleton.mp hx2 with rfl
        show n ≤ n + 1
        omega

lemma renumberFrom_map_stripId (n : Int) (rows : List BookIn) :
    (renumberFrom n rows).map stripId = rows := by
  induction rows generalizing n with
  | nil => rfl
  | cons r rs ih =>
    show stripId (rowWithId n r) :: (renumberFrom (n + 1) rs).map stripId = r :: rs
    rw [ih (n + 1)]
    rfl

lemma renumberFrom_map_id (n : Int) (rows : List BookIn) :
    (renumberFrom n rows).map (fun r => r.id) = idRangeFrom n rows.length := by
  induction rows generalizing n with
  | nil => rfl
  | cons r rs ih =>
    show (rowWithId n r).id :: (renumberFrom (n + 1) rs).map (fun r => r.id) = _
    rw [ih (n + 1)]
    rfl

lemma renumberFrom_length (n : Int) (rows : List BookIn) :
    (renumberFrom n rows).length = rows.length := by
  induction rows generalizing n with
  | nil => rfl
  | cons r rs ih =>
    show (renumberFrom (n + 1) rs).length + 1 = rs.length + 1
    rw [ih (n + 1)]

lemma delete_store_eq (s : Store) (book_id : Int) (u : UploadResult) :
    (delete_book s book_id u).store =
      renumberFrom 1 ((s.filter (fun r => r.id != book_id)).map stripId) := by
  show reinsertLoop 1 ((s.filter (fun r => r.id != book_id)).map stripId) [] = _
  rw [reinsertLoop_eq _ 1 [] (by intro x hx; cases hx)]
  simp

lemma contiguous_next_id (s : Store) (h : contiguousIds s) :
    get_next_id_local s = 1 + (s.length : Int) := by
  cases hs : s with
  | nil => rfl
  | cons b rest =>
    rw [← hs]
    have hne : s ≠ [] := by rw [hs]; exact List.cons_ne_nil _ _
    have hsome : ∃ m, sql_max_id s = some m := by
      cases hm : sql_max_id s with
      | none => exact absurd ((sql_max_id_eq_none_iff s).mp hm) hne
      | some m => exact ⟨m, rfl⟩
    obtain ⟨m, hm⟩ := hsome
    have hub := sql_max_id_is_ub s m hm
    obtain ⟨x, hxmem, hxid⟩ := sql_max_id_mem s m hm
    have hlen : ∃ k : Nat, s.length = k + 1 := by
      rw [hs]; exact ⟨rest.length, rfl⟩
    obtain ⟨k, hk⟩ := hlen
    -- the id m is one of the contiguous ids, so m < 1 + length
    have hmlt : m < 1 + (s.length : Int) := by
      have : x.id ∈ s.map (fun r => r.id) := List.mem_map_of_mem _ hxmem
      rw [h] at this
      have := mem_idRangeFrom this
      omega
    -- the last contiguous id 1 + k is the id of some record, so it is ≤ m
    have hlast : (1 : Int) + (k : Int) ∈ s.map (fun r => r.id) := by
      rw [h, hk]
      exact last_mem_idRangeFrom 1 k
    obtain ⟨y, hymem, hyid⟩ := List.mem_map.mp hlast
    have hmge : (1 : Int) + (k : Int) ≤ m := hyid ▸ hub y hymem
    have hmeq : m = 1 + (k : Int) := by
      rw [hk] at hmlt
      push_cast at hmlt
      omega
    show (sql_max_id s).getD 0 + 1 = 1 + (s.length : Int)
    rw [hm, hmeq, hk]
    simp only [Option.getD_some]
    push_cast
    omega

lemma self_mem_insertRow (b : BookOut) (l : Store) : b ∈ insertRow b l := by
  induction l with
  | nil => exact List.mem_singleton.mpr rfl
  | cons x xs ih =>
    simp only [insertRow]
    by_cases hc : b.id < x.id
    · rw [if_pos hc]; exact List.mem_cons_self _ _
    · rw [if_neg hc]; exact List.mem_cons_of_mem _ ih

lemma sublist_insertRow (b : BookOut) (l : Store) : l.Sublist (insertRow b l) := by
  induction l with
  | nil => simp [insertRow]
  | cons x xs ih =>
    simp only [insertRow]
    by_cases hc : b.id < x.id
    · rw [if_pos hc]; exact List.sublist_cons_self _ _
    · rw [if_neg hc]; exact ih.cons₂ x

lemma length_insertRow (b : BookOut) (l : Store) : (insertRow b l).length = l.length + 1 := by
  induction l with
  | nil => rfl
  | cons x xs ih =>
    simp only [insertRow]
    by_cases hc : b.id < x.id
    · rw [if_pos hc]; rfl
    · rw [if_neg hc]
      show (insertRow b xs).length + 1 = (xs.length + 1) + 1
      rw [ih]

lemma update_map_id (s : Store) (book_id : Int) (b : BookIn) :
    (s.map (fun r => if r.id == book_id then mkBookOut r.id b else r)).map (fun r => r.id) =
      s.map (fun r => r.id) := by
  induction s with
  | nil => rfl
  | cons x xs ih =>
    show (if x.id == book_id then mkBookOut x.id b else x).id ::
        ((xs.map (fun r => if r.id == book_id then mkBookOut r.id b else r)).map (fun r => r.id)) =
      x.id :: xs.map (fun r => r.id)
    rw [ih]
    by_cases hc : (x.id == book_id) = true
    · rw [if_pos hc]; rfl
    · rw [if_neg hc]

lemma check_key_401 (a : String) (k : Option String) (h : keyOk a k = false) :
    ∃ d, check_key a k = .error ⟨401, d⟩ := by
  cases k with
  | none => exact ⟨"Missing API key", rfl⟩
  | some v =>
    have hne : v.trim ≠ a.trim := by simpa [keyOk] using h
    refine ⟨"Invalid API key", ?_⟩
    show (if v.trim ≠ a.trim then (Except.error ⟨401, "Invalid API key"⟩ : Except HttpExc Unit)
        else Except.ok ()) = Except.error ⟨401, "Invalid API key"⟩
    rw [if_pos hne]

/-! ### Claim theorems -/

/-- C1: the claim says `POST /save_all` with a non-empty payload replaces
the table with the given records under fresh ids 1..n and returns
success.  In the code the loop body calls `item.get(...)` on a pydantic
`BookOut` model, which has no `get` attribute, so every non-empty payload
raises `AttributeError` inside the `try`: the handler answers
`500 save_all failed`, the uncommitted `DELETE` is rolled back, and the
table keeps all its prior records. -/
theorem save_all_nonempty_always_500 (s : Store) (item : BookOut)
    (rest : List BookOut) (u : UploadResult) :
    (save_all s (item :: rest) u).response = .error ⟨500, "save_all failed"⟩ ∧
    (save_all s (item :: rest) u).store = s ∧
    (save_all s (item :: rest) u).log = [] :=
  ⟨rfl, rfl, rfl⟩

/-- C3: for every store state and every identifier, present or absent,
`DELETE /books/{id}` returns the success detail `deleted_and_renumbered`,
and afterwards the surviving records carry exactly the contiguous
identifiers 1..n in their prior relative order with all non-id fields
unchanged; when the identifier was absent the record set is unchanged
apart from the renumbering. -/
theorem delete_book_renumbers (s : Store) (book_id : Int) (u : UploadResult) :
    (delete_book s book_id u).response = .ok "deleted_and_renumbered" ∧
    ((delete_book s book_id u).store).map stripId =
      (s.filter (fun r => r.id != book_id)).map stripId ∧
    ((delete_book s book_id u).store).map (fun r => r.id) =
      idRangeFrom 1 ((delete_book s book_id u).store).length ∧
    ((∀ x ∈ s, x.id ≠ book_id) →
      ((delete_book s book_id u).store).map stripId = s.map stripId) := by
  have hst := delete_store_eq s book_id u
  refine ⟨rfl, ?_, ?_, ?_⟩
  · rw [hst, renumberFrom_map_stripId]
  · rw [hst, renumberFrom_map_id, renumberFrom_length]
  · intro habs
    rw [hst, renumberFrom_map_stripId]
    have hfil : s.filter (fun r => r.id != book_id) = s :=
      List.filter_eq_self.mpr (fun a ha => by simpa using habs a ha)
    rw [hfil]

/-- Witness for C3 at a concrete store and an absent identifier. -/
theorem delete_book_renumbers_witness :
    ((delete_book [mkBookOut 1 ⟨"Dune", "Herbert", "", "", "", ""⟩] 3 .updated).store).map stripId =
      [mkBookOut 1 ⟨"Dune", "Herbert", "", "", "", ""⟩].map stripId :=
  (delete_book_renumbers [mkBookOut 1 ⟨"Dune", "Herbert", "", "", "", ""⟩] 3 .updated).2.2.2
    (by intro x hx; rcases List.mem_singleton.mp hx with rfl; decide)

/-- C4: `POST /books` assigns the new record the identifier
`max(existing ids) + 1`, or `1` on an empty store (`specNextId`), returns
the created record carrying that identifier and the submitted fields, and
adds it to the store while keeping every prior record. -/
theorem add_book_assigns_next_id (s : Store) (b : BookIn) (u : UploadResult) :
    (add_book s b u).response = .ok (mkBookOut (specNextId s) b) ∧
    mkBookOut (specNextId s) b ∈ (add_book s b u).store ∧
    s.Sublist (add_book s b u).store ∧
    (add_book s b u).store.length = s.length + 1 := by
  have hid : get_next_id_local s = specNextId s := get_next_id_local_eq_specNextId s
  have hresp : (add_book s b u).response = .ok (mkBookOut (get_next_id_local s) b) := rfl
  have hstore : (add_book s b u).store = insertRow (mkBookOut (get_next_id_local s) b) s := rfl
  refine ⟨?_, ?_, ?_, ?_⟩
  · rw [hresp, hid]
  · rw [hstore, hid]; exact self_mem_insertRow _ _
  · rw [hstore]; exact sublist_insertRow _ _
  · rw [hstore]; exact length_insertRow _ _

/-- C6: updating an identifier absent from the store returns 404
`Book not found` and leaves the store completely unchanged. -/
theorem update_book_absent_404 (s : Store) (book_id : Int) (b : BookIn)
    (u : UploadResult) (h : ∀ x ∈ s, x.id ≠ book_id) :
    (update_book s book_id b u).response = .error ⟨404, "Book not found"⟩ ∧
    (update_book s book_id b u).store = s := by
  have hf : s.find? (fun r => r.id == book_id) = none :=
    List.find?_eq_none.mpr (fun x hx => by simp [h x hx])
  unfold update_book
  rw [hf]
  exact ⟨rfl, rfl⟩

/-- Witness for C6 on the empty store. -/
theorem update_book_absent_404_witness :
    (update_book [] 7 ⟨"t", "a", "", "", "", ""⟩ .updated).response =
      .error ⟨404, "Book not found"⟩ ∧
    (update_book [] 7 ⟨"t", "a", "", "", "", ""⟩ .updated).store = [] :=
  update_book_absent_404 [] 7 ⟨"t", "a", "", "", "", ""⟩ .updated
    (by intro x hx; cases hx)

/-- C7: for each mutating operation, a failing Drive upload of the
backing file changes neither the response nor the resulting store
relative to any other upload outcome — the local mutation stands, the
request's normal response is returned, and the failure shows up only in
the log. -/
theorem drive_upload_failure_swallowed (s : Store) (b : BookIn) (book_id : Int)
    (payload : List BookOut) (msg : String) (u : UploadResult) :
    ((add_book s b (.failed msg)).response = (add_book s b u).response ∧
      (add_book s b (.failed msg)).store = (add_book s b u).store ∧
      (add_book s b (.failed msg)).log = ["Upload after add failed: " ++ msg]) ∧
    ((update_book s book_id b (.failed msg)).response = (update_book s book_id b u).response ∧
      (update_book s book_id b (.failed msg)).store = (update_book s book_id b u).store) ∧
    ((delete_book s book_id (.failed msg)).response = .ok "deleted_and_renumbered" ∧
      (delete_book s book_id (.failed msg)).store = (delete_book s book_id u).store ∧
      (delete_book s book_id (.failed msg)).log = ["Upload after delete failed: " ++ msg]) ∧
    ((save_all s payload (.failed msg)).response = (save_all s payload u).response ∧
      (save_all s payload (.failed msg)).store = (save_all s payload u).store) := by
  refine ⟨⟨rfl, rfl, rfl⟩, ?_, ⟨rfl, rfl, rfl⟩, ?_⟩
  · unfold update_book
    cases hf : s.find? (fun r => r.id == book_id) <;> exact ⟨rfl, rfl⟩
  · unfold save_all
    cases hl : saveAllLoop payload 1 [] <;> exact ⟨rfl, rfl⟩

/-- C9: a successful `PUT /books/{id}` on a present identifier returns
the updated record, keeps every identifier (hence the record count)
unchanged, and leaves every record whose identifier differs from the
target exactly as it was, at its position. -/
theorem update_book_existing_frame (s : Store) (book_id : Int) (b : BookIn)
    (u : UploadResult) (h : ∃ x ∈ s, x.id = book_id) :
    (update_book s book_id b u).response = .ok (mkBookOut book_id b) ∧
    ((update_book s book_id b u).store).map (fun r => r.id) = s.map (fun r => r.id) ∧
    ((update_book s book_id b u).store).length = s.length ∧
    (∀ i : Nat, ∀ r : BookOut, s[i]? = some r → r.id ≠ book_id →
      ((update_book s book_id b u).store)[i]? = some r) := by
  obtain ⟨x, hx, hxid⟩ := h
  have hsome : (s.find? (fun r => r.id == book_id)).isSome :=
    List.find?_isSome.mpr ⟨x, hx, by simp [hxid]⟩
  obtain ⟨y, hy⟩ := Option.isSome_iff_exists.mp hsome
  have hupd : update_book s book_id b u =
      ⟨.ok (mkBookOut book_id b),
        s.map (fun r => if r.id == book_id then mkBookOut r.id b else r),
        uploadLog "Upload after update failed: " u⟩ := by
    unfold update_book
    rw [hy]
  rw [hupd]
  refine ⟨rfl, update_map_id s book_id b, List.length_map _ _, ?_⟩
  intro i r hir hne
  show (s.map (fun r => if r.id == book_id then mkBookOut r.id b else r))[i]? = some r
  rw [List.getElem?_map, hir]
  have hcond : ¬ ((r.id == book_id) = true) := by simp [hne]
  show some (if r.id == book_id then mkBookOut r.id b else r) = some r
  rw [if_neg hcond]

/-- Witness for C9: updating id 1 of a two-record store leaves the
record at position 1 untouched. -/
theorem update_book_existing_frame_witness :
    (update_book [mkBookOut 1 ⟨"Dune", "Herbert", "", "", "", ""⟩,
        mkBookOut 2 ⟨"Emma", "Austen", "", "", "", ""⟩] 1
      ⟨"Dune2", "Herbert", "", "", "", ""⟩ .updated).response =
      .ok (mkBookOut 1 ⟨"Dune2", "Herbert", "", "", "", ""⟩) ∧
    ((update_book [mkBookOut 1 ⟨"Dune", "Herbert", "", "", "", ""⟩,
        mkBookOut 2 ⟨"Emma", "Austen", "", "", "", ""⟩] 1
      ⟨"Dune2", "Herbert", "", "", "", ""⟩ .updated).store)[1]? =
      some (mkBookOut 2 ⟨"Emma", "Austen", "", "", "", ""⟩) := by
  have h := update_book_existing_frame
    [mkBookOut 1 ⟨"Dune", "Herbert", "", "", "", ""⟩,
      mkBookOut 2 ⟨"Emma", "Austen", "", "", "", ""⟩] 1
    ⟨"Dune2", "Herbert", "", "", "", ""⟩ .updated
    ⟨mkBookOut 1 ⟨"Dune", "Herbert", "", "", "", ""⟩, List.mem_cons_self _ _, rfl⟩
  exact ⟨h.1, h.2.2.2 1 (mkBookOut 2 ⟨"Emma", "Austen", "", "", "", ""⟩) rfl (by decide)⟩

/-- C10: starting from a store whose identifiers are exactly the
contiguous sequence 1..n, every store operation — insert, update (any
target id, in particular an existing one), delete of any id, and full
replace — yields a store whose identifiers are again exactly 1..m for
the resulting count m. -/
theorem store_ops_preserve_contiguous_ids (s : Store) (b : BookIn) (book_id : Int)
    (payload : List BookOut) (u : UploadResult) (h : contiguousIds s) :
    contiguousIds (add_book s b u).store ∧
    contiguousIds (update_book s book_id b u).store ∧
    contiguousIds (delete_book s book_id u).store ∧
    contiguousIds (save_all s payload u).store := by
  refine ⟨?_, ?_, ?_, ?_⟩
  · -- insert
    have hnext := contiguous_next_id s h
    have happend : insertRow (mkBookOut (get_next_id_local s) b) s =
        s ++ [mkBookOut (get_next_id_local s) b] :=
      insertRow_append _ _ (fun x hx => by
        have hxmem : x.id ∈ s.map (fun r => r.id) := List.mem_map_of_mem _ hx
        rw [h] at hxmem
        have hb := mem_idRangeFrom hxmem
        show ¬ (mkBookOut (get_next_id_local s) b).id < x.id
        have hg : (mkBookOut (get_next_id_local s) b).id = get_next_id_local s := rfl
        rw [hg, hnext]
        omega)
    show contiguousIds (insertRow (mkBookOut (get_next_id_local s) b) s)
    unfold contiguousIds
    rw [happend, List.map_append, h, List.length_append]
    have hg : (mkBookOut (get_next_id_local s) b).id = 1 + (s.length : Int) := hnext
    show idRangeFrom 1 s.length ++ [(mkBookOut (get_next_id_local s) b).id] =
      idRangeFrom 1 (s.length + 1)
    rw [hg, idRangeFrom_concat 1 s.length]
  · -- update
    cases hf : s.find? (fun r => r.id == book_id) with
    | none =>
      have hst : (update_book s book_id b u).store = s := by
        unfold update_book; rw [hf]
      rw [hst]; exact h
    | some y =>
      have hst : (update_book s book_id b u).store =
          s.map (fun r => if r.id == book_id then mkBookOut r.id b else r) := by
        unfold update_book; rw [hf]
      unfold contiguousIds
      rw [hst, update_map_id s book_id b, List.length_map]
      exact h
  · -- delete
    unfold contiguousIds
    rw [delete_store_eq, renumberFrom_map_id, renumberFrom_length]
  · -- full replace
    cases payload with
    | nil => rfl
    | cons item rest =>
      have hst : (save_all s (item :: rest) u).store = s := rfl
      show contiguousIds (save_all s (item :: rest) u).store
      rw [hst]; exact h

/-- Witness for C10 on the empty (trivially contiguous) store. -/
theorem store_ops_preserve_contiguous_ids_witness :
    contiguousIds (add_book [] ⟨"t", "a", "", "", "", ""⟩ .updated).store ∧
    contiguousIds (update_book [] 1 ⟨"t", "a", "", "", "", ""⟩ .updated).store ∧
    contiguousIds (delete_book [] 1 .updated).store ∧
    contiguousIds (save_all [] [] .updated).store :=
  store_ops_preserve_contiguous_ids [] ⟨"t", "a", "", "", "", ""⟩ 1 [] .updated rfl

/-- C8 counterexample: with the token bundle present but expired and
carrying no refresh token, `get_oauth_drive_service` does not fail — it
returns a Drive client built with the still-expired credential, where
the claim demands an authorization error. -/
theorem oauth_expired_without_refresh_not_error :
    exceptIsError (get_oauth_drive_service ⟨some "c", some "t", true, false⟩) = false :=
  rfl

/-- C8 (amended): `get_oauth_drive_service` fails with a 500
authorization error when the credentials blob is absent, and with a 500
error instructing re-authorization when the token bundle is absent; when
the token is expired and a refresh token is present the credential is
refreshed transparently before the client is built; when the token is
expired without a refresh token no error is raised here — the client is
built with the expired, unrefreshed credential. -/
theorem get_oauth_drive_service_cases (env : OAuthEnv) :
    (env.oauth_credentials_b64 = none →
      get_oauth_drive_service env = .error ⟨500, "OAuth credentials missing"⟩) ∧
    (env.oauth_credentials_b64.isSome = true → env.oauth_token_b64 = none →
      get_oauth_drive_service env =
        .error ⟨500, "OAuth token missing. You must authorize first."⟩) ∧
    (env.oauth_credentials_b64.isSome = true → env.oauth_token_b64.isSome = true →
      env.token_expired = true → env.has_refresh_token = true →
      get_oauth_drive_service env = .ok ⟨⟨false, true, true⟩⟩) ∧
    (env.oauth_credentials_b64.isSome = true → env.oauth_token_b64.isSome = true →
      env.token_expired = true → env.has_refresh_token = false →
      get_oauth_drive_service env = .ok ⟨⟨true, false, false⟩⟩) := by
  obtain ⟨c, t, e, r⟩ := env
  cases c with
  | none =>
    exact ⟨fun _ => rfl, fun hs => by simp at hs, fun hs => by simp at hs,
      fun hs => by simp at hs⟩
  | some cv =>
    cases t with
    | none =>
      exact ⟨fun hn => by simp at hn, fun _ _ => rfl, fun _ ht => by simp at ht,
        fun _ ht => by simp at ht⟩
    | some tv =>
      refine ⟨fun hn => by simp at hn, fun _ hn => by simp at hn,
        fun _ _ he hr => ?_, fun _ _ he hr => ?_⟩
      · subst he; subst hr; rfl
      · subst he; subst hr; rfl

/-- Witness for C8 (amended): the token-absent case at a concrete
environment. -/
theorem get_oauth_drive_service_cases_witness :
    get_oauth_drive_service ⟨some "c", none, false, false⟩ =
      .error ⟨500, "OAuth token missing. You must authorize first."⟩ :=
  (get_oauth_drive_service_cases ⟨some "c", none, false, false⟩).2.1 rfl rfl

/-- C5 counterexample: a `POST /upload_ebook` request that passes the
folder-configuration check and then fails to build the OAuth Drive
client exits with a 500 while its temporary file is still on disk —
refuting the claim that every exit path removes it. -/
theorem upload_ebook_error_leaves_temp_file :
    (upload_ebook ⟨none, none, false, false⟩
        ⟨some "folder", .ok ("i", "v", "d"), none, true, true⟩).response =
      .error ⟨500, "OAuth credentials missing"⟩ ∧
    (upload_ebook ⟨none, none, false, false⟩
        ⟨some "folder", .ok ("i", "v", "d"), none, true, true⟩).temp_file_exists = true :=
  ⟨rfl, rfl⟩

/-- C5 (amended): past the folder-configuration check, the temporary
file is removed only on the success exit (and only when the `os.remove`
call itself succeeds); on every error exit — OAuth client construction
failure or Drive upload failure — the temporary file is left behind. -/
theorem upload_ebook_removes_temp_only_on_success (oenv : OAuthEnv) (uenv : UploadEnv)
    (hf : uenv.ebooks_folder_id.isSome = true) :
    (upload_ebook oenv uenv).temp_file_exists =
      (match (upload_ebook oenv uenv).response with
       | .ok _ => !uenv.remove_ok
       | .error _ => true) := by
  obtain ⟨fid, dc, owner, perm, rok⟩ := uenv
  cases fid with
  | none => simp at hf
  | some f =>
    unfold upload_ebook
    cases hdrv : get_oauth_drive_service oenv with
    | error he => rfl
    | ok d =>
      cases dc with
      | error m => rfl
      | ok tpl =>
        obtain ⟨i, v, dl⟩ := tpl
        rfl

/-- Witness for C5 (amended) on a fully successful request. -/
theorem upload_ebook_cleanup_witness :
    (upload_ebook ⟨some "c", some "t", false, false⟩
        ⟨some "folder", .ok ("i", "v", "d"), none, true, true⟩).temp_file_exists =
      (match (upload_ebook ⟨some "c", some "t", false, false⟩
          ⟨some "folder", .ok ("i", "v", "d"), none, true, true⟩).response with
       | .ok _ => !true
       | .error _ => true) :=
  upload_ebook_removes_temp_only_on_success ⟨some "c", some "t", false, false⟩
    ⟨some "folder", .ok ("i", "v", "d"), none, true, true⟩ rfl

/-- C2 counterexample: `GET /oauth_start` never calls `check_key`: a
request with no `X-API-Key` header at all is served without a 401 —
refuting the claim that every endpoint answers 401 to a missing key. -/
theorem oauth_start_without_key_not_401 :
    statusOf (handle (Env.mk "secret" (OAuthEnv.mk (some "c") none false false)
        (UploadEnv.mk none (Except.error "e") none true true) UploadResult.updated
        "url" "http://localhost" (Except.error "e") (Except.error "e"))
      Request.oauthStart none []).1 ≠ some 401 := by
  decide

/-- C2 (amended): every endpoint except `GET /oauth_start` and
`GET /oauth_finish` answers 401 and leaves the record store unchanged
whenever the `X-API-Key` header is absent or does not match the
configured secret after trimming whitespace on both sides. -/
theorem bad_key_yields_401_and_no_change (env : Env) (req : Request)
    (key : Option String) (s : Store) (hreq : usesCheckKey req = true)
    (hkey : keyOk env.api_key key = false) :
    statusOf (handle env req key s).1 = some 401 ∧ (handle env req key s).2 = s := by
  obtain ⟨d, hd⟩ := check_key_401 env.api_key key hkey
  cases req with
  | oauthStart => simp [usesCheckKey] at hreq
  | oauthFinish code => simp [usesCheckKey] at hreq
  | getBooks => simp [handle, hd, statusOf]
  | addBook b => simp [handle, hd, statusOf]
  | updateBook book_id b => simp [handle, hd, statusOf]
  | deleteBook book_id => simp [handle, hd, statusOf]
  | saveAll payload => simp [handle, hd, statusOf]
  | uploadEbook => simp [handle, hd, statusOf]
  | backup => simp [handle, hd, statusOf]

/-- Witness for C2 (amended): `GET /books` without a key on a concrete
environment. -/
theorem bad_key_yields_401_witness :
    statusOf (handle (Env.mk "secret" (OAuthEnv.mk none none false false)
        (UploadEnv.mk none (Except.error "e") none true true) UploadResult.updated
        "url" "http://localhost" (Except.error "e") (Except.error "e"))
      Request.getBooks none []).1 = some 401 ∧
    (handle (Env.mk "secret" (OAuthEnv.mk none none false false)
        (UploadEnv.mk none (Except.error "e") none true true) UploadResult.updated
        "url" "http://localhost" (Except.error "e") (Except.error "e"))
      Request.getBooks none []).2 = [] :=
  bad_key_yields_401_and_no_change _ Request.getBooks none [] rfl rfl

end BooksApi
